import Mathlib

/-!
# Verification of the loan allocation engine

Shallow embedding of `LoanAllocatorGUI.allocate` from
`loan_allocator_gui.py`.  Monetary values are modelled as rationals
(`ℚ`); the Python code uses IEEE doubles, and every comparison the
claims depend on is either exact or guarded by the code's own `1e-6`
tolerance, which we carry over literally as `1/1000000 : ℚ`.

A table is modelled as the set of its column names (what
`set(df.columns)` yields in the Python code) together with its rows in
order.  Rows carry the fields the allocator reads; a field whose column
may be absent or null (`PAID` on the submission side) is an `Option ℚ`.
Raising `ValueError` is modelled as returning `.error`; the two
distinct messages of the source ("missing columns" and "Allocation
mismatch") become the two constructors of `AllocError`.
-/

set_option autoImplicit false

namespace LoanAlloc

/-- A row of the Submission table: the columns `allocate` reads, with
`paid` as the cell of the optional `PAID` column (`none` = null/NaN,
or meaningless when the column is absent from the table). -/
structure SubRow (ι ε : Type) where
  idNumber : ι
  empNumber : ε
  instalmentAmount : ℚ
  paid : Option ℚ
deriving DecidableEq, Repr

/-- The Submission table: its set of column names plus its rows in
original order. -/
structure SubTable (ι ε : Type) where
  cols : Finset String
  rows : List (SubRow ι ε)

/-- A row of the Collected table. -/
structure ColRow (ι ε : Type) where
  idNumber : ι
  empNumber : ε
  paid : ℚ
deriving DecidableEq, Repr

/-- The Collected table. -/
structure ColTable (ι ε : Type) where
  cols : Finset String
  rows : List (ColRow ι ε)

/-- A working submission row once `allocate` has materialised the
`PAID` and `DIFF` columns (lines 164-169 of the source). -/
structure WRow (ι ε : Type) where
  idNumber : ι
  empNumber : ε
  instalmentAmount : ℚ
  paid : ℚ
  diff : ℚ
deriving DecidableEq, Repr

/-- The `AllocationResult` dataclass (minus the GUI-only
`output_path`). -/
structure AllocationResult where
  records : ℕ
  total_paid : ℚ
  leftover : ℚ
deriving DecidableEq, Repr

/-- Which input table a schema failure is about. -/
inductive TableTag
  | submission
  | collected
deriving DecidableEq, Repr

/-- The failures `allocate` can raise: a missing-columns error naming
the missing columns of one table, or the defensive conservation-check
failure. -/
inductive AllocError
  | schemaError (table : TableTag) (missing : Finset String)
  | consistencyError
deriving DecidableEq

/-- `required_sub` from the source. -/
def requiredSub : Finset String :=
  {"ID NUMBER", "EMPLOYEE NUMBER", "INSTALMENT AMOUNT"}

/-- `required_col` from the source. -/
def requiredCol : Finset String :=
  {"ID NUMBER", "EMPLOYEE NUMBER", "PAID"}

/-- The source's `1e-6` tolerance. -/
def tol : ℚ := 1 / 1000000

variable {ι ε : Type}

/-- Lines 164-169: normalise one submission row.  If the table has no
`PAID` column every row's paid is set to `0.0`; otherwise null cells
are filled with `0.0` (`fillna`).  `DIFF` is then set to
`INSTALMENT AMOUNT - PAID`. -/
def normRow (hasPaid : Bool) (r : SubRow ι ε) : WRow ι ε :=
  let p : ℚ := if hasPaid then r.paid.getD 0 else 0
  ⟨r.idNumber, r.empNumber, r.instalmentAmount, p, r.instalmentAmount - p⟩

/-- One allocation pass (the inner `for idx in ...` loops, lines
181-193 and 197-209): walk the submission rows in order, and at each
row satisfying the match predicate `p`, stop if the pool is exhausted
(`break`), skip rows with no remaining capacity (`continue`), and
otherwise move `min(remaining, amount)` from the pool into the row's
`paid`, updating `diff`.  Returns the updated rows and the remaining
pool. -/
def allocPass (p : WRow ι ε → Bool) :
    List (WRow ι ε) → ℚ → List (WRow ι ε) × ℚ
  | [], amount => ([], amount)
  | r :: rs, amount =>
    if p r then
      if amount ≤ 0 then (r :: rs, amount)
      else if r.instalmentAmount - r.paid ≤ 0 then
        let res := allocPass p rs amount
        (r :: res.1, res.2)
      else
        let alloc := min (r.instalmentAmount - r.paid) amount
        let paid' := r.paid + alloc
        let res := allocPass p rs (amount - alloc)
        ({ r with paid := paid', diff := r.instalmentAmount - paid' } :: res.1,
         res.2)
    else
      let res := allocPass p rs amount
      (r :: res.1, res.2)

/-- Lines 176-209: process one collected row.  The primary pass
matches on `ID NUMBER`; if the pool is still positive a secondary
pass matches on `EMPLOYEE NUMBER`.  Returns the updated submission
rows and the unconsumed pool. -/
def processCol [DecidableEq ι] [DecidableEq ε]
    (sub : List (WRow ι ε)) (c : ColRow ι ε) : List (WRow ι ε) × ℚ :=
  let s1 := allocPass (fun r => decide (r.idNumber = c.idNumber)) sub c.paid
  if s1.2 > 0 then
    allocPass (fun r => decide (r.empNumber = c.empNumber)) s1.1 s1.2
  else s1

/-- Lines 175-212: the outer loop over collected rows, threading the
submission rows and accumulating `leftover` (`leftover += amount`
only when `amount > 0`). -/
def allocLoop [DecidableEq ι] [DecidableEq ε] :
    List (ColRow ι ε) → List (WRow ι ε) → ℚ → List (WRow ι ε) × ℚ
  | [], sub, leftover => (sub, leftover)
  | c :: cs, sub, leftover =>
    let s := processCol sub c
    allocLoop cs s.1 (if s.2 > 0 then leftover + s.2 else leftover)

/-- `float(df_col["PAID"].sum())` taken before allocation. -/
def totalCollected (c : ColTable ι ε) : ℚ :=
  (c.rows.map (·.paid)).sum

/-- `float(df_sub["PAID"].sum())` over working rows. -/
def totalPaid (rows : List (WRow ι ε)) : ℚ :=
  (rows.map (·.paid)).sum

/-- The submission rows once lines 164-169 have run: `PAID`
materialised (all-zero when the column is absent, null-filled with 0
otherwise) and `DIFF` set. -/
def normalizedRows (s : SubTable ι ε) : List (WRow ι ε) :=
  s.rows.map (normRow (decide ("PAID" ∈ s.cols)))

/-- The state after the whole collected loop: final submission rows
and accumulated leftover. -/
def allocRun [DecidableEq ι] [DecidableEq ε]
    (s : SubTable ι ε) (c : ColTable ι ε) : List (WRow ι ε) × ℚ :=
  allocLoop c.rows (normalizedRows s) 0

/-- `LoanAllocatorGUI.allocate` (lines 155-223).  On success it
returns the updated submission rows (the in-place mutation of
`df_sub`) together with the `AllocationResult`; raising is modelled
as `.error`, in which case no updated table is produced. -/
def allocate [DecidableEq ι] [DecidableEq ε]
    (s : SubTable ι ε) (c : ColTable ι ε) :
    Except AllocError (List (WRow ι ε) × AllocationResult) :=
  if requiredSub \ s.cols ≠ ∅ then
    .error (.schemaError .submission (requiredSub \ s.cols))
  else if requiredCol \ c.cols ≠ ∅ then
    .error (.schemaError .collected (requiredCol \ c.cols))
  else
    let res := allocRun s c
    let total_paid := totalPaid res.1
    if |total_paid - (totalCollected c - res.2)| > tol then
      .error .consistencyError
    else
      .ok (res.1, ⟨c.rows.length, total_paid, res.2⟩)

/-! ## Concrete tables used by the scenarios and witnesses -/

/-- Submission column set without a `PAID` column. -/
def subCols : Finset String :=
  {"ID NUMBER", "EMPLOYEE NUMBER", "INSTALMENT AMOUNT"}

/-- Submission column set including a `PAID` column. -/
def subColsP : Finset String :=
  {"ID NUMBER", "EMPLOYEE NUMBER", "INSTALMENT AMOUNT", "PAID"}

/-- Collected column set. -/
def colCols : Finset String := {"ID NUMBER", "EMPLOYEE NUMBER", "PAID"}

/-- Scenario 1 submission: one record, instalment 100, no `PAID`
column. -/
def sub1 : SubTable ℕ String := ⟨subCols, [⟨1, "A", 100, none⟩]⟩

/-- Scenario 1 collected: one payment of 60 for id 1. -/
def col1 : ColTable ℕ String := ⟨colCols, [⟨1, "A", 60⟩]⟩

/-- Scenario 3 submission: two records sharing employee "A". -/
def sub3 : SubTable ℕ String :=
  ⟨subCols, [⟨1, "A", 50, none⟩, ⟨2, "A", 50, none⟩]⟩

/-- Scenario 3 collected: a payment whose id 9 matches nothing. -/
def col3 : ColTable ℕ String := ⟨colCols, [⟨9, "A", 30⟩]⟩

/-- Scenario 5 submission: one record with instalment 30. -/
def sub5 : SubTable ℕ String := ⟨subCols, [⟨1, "A", 30, none⟩]⟩

/-- Scenario 5 collected: two payments of 20 for the same id. -/
def col5 : ColTable ℕ String := ⟨colCols, [⟨1, "A", 20⟩, ⟨1, "A", 20⟩]⟩

/-- An empty collected table (with the required columns). -/
def col0 : ColTable ℕ String := ⟨colCols, []⟩

/-- A submission table with a negative instalment amount. -/
def subNeg : SubTable ℕ String := ⟨subCols, [⟨1, "A", -1, none⟩]⟩

/-- A submission table whose `PAID` column holds a tiny pre-existing
payment of `1e-7`. -/
def subTiny : SubTable ℕ String :=
  ⟨subColsP, [⟨1, "A", 100, some (1 / 10000000)⟩]⟩

/-- A submission table missing its `INSTALMENT AMOUNT` column. -/
def subMissing : SubTable ℕ String :=
  ⟨{"ID NUMBER", "EMPLOYEE NUMBER"}, []⟩

/-- A collected table missing its `PAID` column. -/
def colMissing : ColTable ℕ String :=
  ⟨{"ID NUMBER", "EMPLOYEE NUMBER"}, []⟩

/-! ## Helper lemmas about the allocation passes -/

theorem subCols_complete : requiredSub \ subCols = ∅ := by decide

theorem subColsP_complete : requiredSub \ subColsP = ∅ := by decide

theorem colCols_complete : requiredCol \ colCols = ∅ := by decide

theorem subCols_noPaid : ("PAID" ∈ subCols) = False := by
  simp only [eq_iff_iff, iff_false]
  decide

theorem subColsP_hasPaid : ("PAID" ∈ subColsP) = True := by
  simp only [eq_iff_iff, iff_true]
  decide

/-- An exhausted (or negative) pool makes a pass a no-op: the first
matching row hits the `break`, and non-matching rows are never
touched. -/
theorem allocPass_of_nonpos (p : WRow ι ε → Bool) (sub : List (WRow ι ε))
    {amount : ℚ} (h : amount ≤ 0) : allocPass p sub amount = (sub, amount) := by
  induction sub with
  | nil => rfl
  | cons r rs ih =>
    unfold allocPass
    cases hp : p r with
    | true => simp [h]
    | false => simp [ih]

/-- The running `leftover` never decreases across the collected loop. -/
theorem allocLoop_leftover_le [DecidableEq ι] [DecidableEq ε]
    (cs : List (ColRow ι ε)) :
    ∀ (sub : List (WRow ι ε)) (lo : ℚ), lo ≤ (allocLoop cs sub lo).2 := by
  induction cs with
  | nil => intro sub lo; exact le_refl lo
  | cons c cs ih =>
    intro sub lo
    unfold allocLoop
    refine le_trans ?_ (ih _ _)
    by_cases h : (processCol sub c).2 > 0
    · simp only [h, if_true]
      linarith
    · simp only [h, if_false]
      exact le_refl lo

/-- Generic preservation: any row property stable under the single
update the passes perform (adding a positive allocation bounded by the
remaining capacity, and resetting `diff`) holds of every row after a
pass, provided it held before. -/
theorem allocPass_forall (P : WRow ι ε → Prop)
    (hupd : ∀ (r : WRow ι ε) (a : ℚ), P r → 0 < a →
      a ≤ r.instalmentAmount - r.paid →
      P ⟨r.idNumber, r.empNumber, r.instalmentAmount, r.paid + a,
         r.instalmentAmount - (r.paid + a)⟩)
    (p : WRow ι ε → Bool) :
    ∀ (sub : List (WRow ι ε)) (amount : ℚ), (∀ r ∈ sub, P r) →
      ∀ r ∈ (allocPass p sub amount).1, P r := by
  intro sub
  induction sub with
  | nil => intro amount _ r hr; simp [allocPass] at hr
  | cons r rs ih =>
    intro amount hall
    have hr : P r := hall r (by simp)
    have hrs : ∀ x ∈ rs, P x := fun x hx => hall x (by simp [hx])
    unfold allocPass
    cases hp : p r with
    | true =>
      by_cases h0 : amount ≤ 0
      · simpa [h0] using hall
      · by_cases h1 : r.instalmentAmount - r.paid ≤ 0
        · simp only [h0, h1, if_true, if_false]
          intro x hx
          rcases List.mem_cons.mp hx with h | h
          · exact h ▸ hr
          · exact ih amount hrs x h
        · simp only [h0, h1, if_true, if_false]
          intro x hx
          rcases List.mem_cons.mp hx with h | h
          · subst h
            refine hupd r (min (r.instalmentAmount - r.paid) amount) hr ?_
              (min_le_left _ _)
            exact lt_min (by linarith) (by linarith)
          · exact ih _ hrs x h
    | false =>
      simp only []
      intro x hx
      rcases List.mem_cons.mp hx with h | h
      · exact h ▸ hr
      · exact ih amount hrs x h

/-- A pass never lowers any row's `paid` (pointwise along the list). -/
theorem allocPass_paid_le (p : WRow ι ε → Bool) :
    ∀ (sub : List (WRow ι ε)) (amount : ℚ),
      List.Forall₂ (fun a b => a.paid ≤ b.paid) sub (allocPass p sub amount).1 := by
  intro sub
  induction sub with
  | nil => intro amount; exact List.Forall₂.nil
  | cons r rs ih =>
    intro amount
    unfold allocPass
    cases hp : p r with
    | true =>
      by_cases h0 : amount ≤ 0
      · simp only [h0, if_true]
        exact (List.forall₂_same).mpr fun a _ => le_refl _
      · by_cases h1 : r.instalmentAmount - r.paid ≤ 0
        · simp only [h0, h1, if_true, if_false]
          exact List.Forall₂.cons (le_refl _) (ih amount)
        · simp only [h0, h1, if_true, if_false]
          refine List.Forall₂.cons ?_ (ih _)
          have : 0 < min (r.instalmentAmount - r.paid) amount :=
            lt_min (by linarith) (by linarith)
          simp only []
          linarith
    | false =>
      exact List.Forall₂.cons (le_refl _) (ih amount)

/-- Pointwise `paid ≤ paid` comparisons compose. -/
theorem forall₂_paid_le_trans {l₁ l₂ l₃ : List (WRow ι ε)}
    (h₁ : List.Forall₂ (fun a b => a.paid ≤ b.paid) l₁ l₂)
    (h₂ : List.Forall₂ (fun a b => a.paid ≤ b.paid) l₂ l₃) :
    List.Forall₂ (fun a b => a.paid ≤ b.paid) l₁ l₃ := by
  induction h₁ generalizing l₃ with
  | nil => cases h₂; exact List.Forall₂.nil
  | cons h t ih =>
    cases h₂ with
    | cons h' t' => exact List.Forall₂.cons (le_trans h h') (ih t')

/-- `allocPass_forall` lifted to one collected record. -/
theorem processCol_forall [DecidableEq ι] [DecidableEq ε]
    (P : WRow ι ε → Prop)
    (hupd : ∀ (r : WRow ι ε) (a : ℚ), P r → 0 < a →
      a ≤ r.instalmentAmount - r.paid →
      P ⟨r.idNumber, r.empNumber, r.instalmentAmount, r.paid + a,
         r.instalmentAmount - (r.paid + a)⟩)
    (sub : List (WRow ι ε)) (c : ColRow ι ε) (h : ∀ r ∈ sub, P r) :
    ∀ r ∈ (processCol sub c).1, P r := by
  unfold processCol
  by_cases hgt :
      (allocPass (fun r => decide (r.idNumber = c.idNumber)) sub c.paid).2 > 0
  · simp only [hgt, if_true]
    exact allocPass_forall P hupd _ _ _ (allocPass_forall P hupd _ _ _ h)
  · simp only [hgt, if_false]
    exact allocPass_forall P hupd _ _ _ h

/-- `allocPass_forall` lifted to the whole collected loop. -/
theorem allocLoop_forall [DecidableEq ι] [DecidableEq ε]
    (P : WRow ι ε → Prop)
    (hupd : ∀ (r : WRow ι ε) (a : ℚ), P r → 0 < a →
      a ≤ r.instalmentAmount - r.paid →
      P ⟨r.idNumber, r.empNumber, r.instalmentAmount, r.paid + a,
         r.instalmentAmount - (r.paid + a)⟩)
    (cs : List (ColRow ι ε)) :
    ∀ (sub : List (WRow ι ε)) (lo : ℚ), (∀ r ∈ sub, P r) →
      ∀ r ∈ (allocLoop cs sub lo).1, P r := by
  induction cs with
  | nil => intro sub lo h; exact h
  | cons c cs ih =>
    intro sub lo h
    unfold allocLoop
    exact ih _ _ (processCol_forall P hupd sub c h)

/-- `allocPass_paid_le` lifted to one collected record. -/
theorem processCol_paid_le [DecidableEq ι] [DecidableEq ε]
    (sub : List (WRow ι ε)) (c : ColRow ι ε) :
    List.Forall₂ (fun a b => a.paid ≤ b.paid) sub (processCol sub c).1 := by
  unfold processCol
  by_cases hgt :
      (allocPass (fun r => decide (r.idNumber = c.idNumber)) sub c.paid).2 > 0
  · simp only [hgt, if_true]
    exact forall₂_paid_le_trans (allocPass_paid_le _ _ _) (allocPass_paid_le _ _ _)
  · simp only [hgt, if_false]
    exact allocPass_paid_le _ _ _

/-- `allocPass_paid_le` lifted to the whole collected loop. -/
theorem allocLoop_paid_le [DecidableEq ι] [DecidableEq ε]
    (cs : List (ColRow ι ε)) :
    ∀ (sub : List (WRow ι ε)) (lo : ℚ),
      List.Forall₂ (fun a b => a.paid ≤ b.paid) sub (allocLoop cs sub lo).1 := by
  induction cs with
  | nil =>
    intro sub lo
    exact (List.forall₂_same).mpr fun a _ => le_refl _
  | cons c cs ih =>
    intro sub lo
    unfold allocLoop
    exact forall₂_paid_le_trans (processCol_paid_le sub c) (ih _ _)

/-- Inverting a successful `allocate`: the schema checks passed, the
returned rows are the loop's final rows, the result fields are the
computed aggregates, and the conservation check held. -/
theorem allocate_ok_inv [DecidableEq ι] [DecidableEq ε]
    {s : SubTable ι ε} {c : ColTable ι ε} {t : List (WRow ι ε)}
    {res : AllocationResult} (h : allocate s c = .ok (t, res)) :
    t = (allocRun s c).1 ∧
    res = ⟨c.rows.length, totalPaid (allocRun s c).1, (allocRun s c).2⟩ ∧
    |totalPaid (allocRun s c).1 - (totalCollected c - (allocRun s c).2)| ≤ tol := by
  unfold allocate at h
  split_ifs at h with h1 h2
  dsimp only at h
  split_ifs at h with h3
  obtain ⟨ht, hres⟩ := Prod.mk.injEq .. ▸ Except.ok.inj h
  exact ⟨ht.symm, hres.symm, not_lt.mp h3⟩

/-! ## The claims -/

/-- C1: whenever `allocate` completes on a pair of input tables, the
returned `total_paid` plus `leftover` equals the collected table's
total `paid` (taken before allocation), within a tolerance of
`1e-6`. -/
theorem claim1_conservation [DecidableEq ι] [DecidableEq ε]
    {s : SubTable ι ε} {c : ColTable ι ε} {t : List (WRow ι ε)}
    {q : AllocationResult} (h : allocate s c = .ok (t, q)) :
    |q.total_paid + q.leftover - totalCollected c| ≤ tol := by
  obtain ⟨-, hres, hchk⟩ := allocate_ok_inv h
  subst hres
  dsimp only
  have heq : totalPaid (allocRun s c).1 + (allocRun s c).2 - totalCollected c =
      totalPaid (allocRun s c).1 - (totalCollected c - (allocRun s c).2) := by
    ring
  rw [heq]
  exact hchk

/-- Witness for C1 at Scenario 1 (one record with instalment 100, one
collected payment of 60). -/
theorem claim1_conservation_w :
    |(AllocationResult.mk 1 60 0).total_paid +
      (AllocationResult.mk 1 60 0).leftover - totalCollected col1| ≤ tol :=
  claim1_conservation (s := sub1) (t := [⟨1, "A", 100, 60, 40⟩]) (by
    norm_num [allocate, allocRun, normalizedRows, normRow, allocLoop,
      processCol, allocPass, totalPaid, totalCollected, tol, sub1, col1,
      subCols_complete, colCols_complete, subCols_noPaid, decide_eq_true_eq])

/-- C4: `allocate` is deterministic — on identical, unmutated inputs
it produces identical outputs (updated rows, records count,
total_paid and leftover alike). -/
theorem claim4_deterministic [DecidableEq ι] [DecidableEq ε]
    (s₁ s₂ : SubTable ι ε) (c₁ c₂ : ColTable ι ε)
    (hs : s₁ = s₂) (hc : c₁ = c₂) :
    allocate s₁ c₁ = allocate s₂ c₂ := by
  subst hs hc
  rfl

/-- Witness for C4 at Scenario 1's tables. -/
theorem claim4_deterministic_w : allocate sub1 col1 = allocate sub1 col1 :=
  claim4_deterministic sub1 sub1 col1 col1 rfl rfl

/-- C5: a collected record matching no submission record by id falls
back to the employee match, in submission order: for Submission =
[{id=1, emp=A, inst=50}, {id=2, emp=A, inst=50}] and Collected =
[{id=9, emp=A, paid=30}], the first record gets paid=30 (diff=20),
the second keeps paid=0, and leftover=0. -/
theorem claim5_fallback :
    allocate sub3 col3 =
      .ok ([⟨1, "A", 50, 30, 20⟩, ⟨2, "A", 50, 0, 50⟩], ⟨1, 30, 0⟩) := by
  norm_num [allocate, allocRun, normalizedRows, normRow, allocLoop,
    processCol, allocPass, totalPaid, totalCollected, tol, sub3, col3,
    subCols_complete, colCols_complete, subCols_noPaid, decide_eq_true_eq]

/-- C6: collected records are consumed sequentially, each seeing the
state its predecessors left: with one submission record of instalment
30 and two collected payments of 20 for it, the first payment brings
paid to 20 (diff 10) with nothing left over, the second allocates only
the remaining 10 (paid 30, diff 0) and its excess 10 becomes the
leftover. -/
theorem claim6_sequential :
    processCol [(⟨1, "A", 30, 0, 30⟩ : WRow ℕ String)] ⟨1, "A", 20⟩ =
      ([⟨1, "A", 30, 20, 10⟩], 0) ∧
    processCol [(⟨1, "A", 30, 20, 10⟩ : WRow ℕ String)] ⟨1, "A", 20⟩ =
      ([⟨1, "A", 30, 30, 0⟩], 10) ∧
    allocate sub5 col5 = .ok ([⟨1, "A", 30, 30, 0⟩], ⟨2, 30, 10⟩) := by
  refine ⟨?_, ?_, ?_⟩ <;>
    norm_num [allocate, allocRun, normalizedRows, normRow, allocLoop,
      processCol, allocPass, totalPaid, totalCollected, tol, sub5, col5,
      subCols_complete, colCols_complete, subCols_noPaid, decide_eq_true_eq]

/-- C2 fails as stated: a submission record with a negative instalment
amount survives `allocate` untouched (`paid = 0 > instalment`), so
`0 ≤ paid ≤ instalment_amount` does not hold for every completing
input. -/
theorem claim2_cap_cex :
    allocate subNeg col0 = .ok ([⟨1, "A", -1, 0, -1⟩], ⟨0, 0, 0⟩) ∧
    ¬ ((⟨1, "A", -1, 0, -1⟩ : WRow ℕ String).paid ≤
        (⟨1, "A", -1, 0, -1⟩ : WRow ℕ String).instalmentAmount) := by
  constructor
  · norm_num [allocate, allocRun, normalizedRows, normRow, allocLoop,
      processCol, allocPass, totalPaid, totalCollected, tol, subNeg, col0,
      subCols_complete, colCols_complete, subCols_noPaid, decide_eq_true_eq]
  · norm_num

/-- C2 amended: if every submission record starts (after null-to-0
normalisation) with `0 ≤ paid ≤ instalment_amount`, then every record
still satisfies `0 ≤ paid ≤ instalment_amount` when `allocate`
completes. -/
theorem claim2_cap_invariant [DecidableEq ι] [DecidableEq ε]
    {s : SubTable ι ε} {c : ColTable ι ε} {t : List (WRow ι ε)}
    {q : AllocationResult} (h : allocate s c = .ok (t, q))
    (hin : ∀ r ∈ normalizedRows s, 0 ≤ r.paid ∧ r.paid ≤ r.instalmentAmount) :
    ∀ r ∈ t, 0 ≤ r.paid ∧ r.paid ≤ r.instalmentAmount := by
  obtain ⟨ht, -, -⟩ := allocate_ok_inv h
  subst ht
  unfold allocRun
  refine allocLoop_forall _ ?_ _ _ _ hin
  intro r a hr ha hle
  refine ⟨?_, ?_⟩ <;> dsimp only
  · linarith [hr.1]
  · linarith [hr.2]

/-- Witness for the amended C2 at Scenario 1. -/
theorem claim2_cap_invariant_w :
    0 ≤ (⟨1, "A", 100, 60, 40⟩ : WRow ℕ String).paid ∧
      (⟨1, "A", 100, 60, 40⟩ : WRow ℕ String).paid ≤
        (⟨1, "A", 100, 60, 40⟩ : WRow ℕ String).instalmentAmount :=
  claim2_cap_invariant (s := sub1) (c := col1)
    (t := [⟨1, "A", 100, 60, 40⟩]) (q := ⟨1, 60, 0⟩)
    (by norm_num [allocate, allocRun, normalizedRows, normRow, allocLoop,
      processCol, allocPass, totalPaid, totalCollected, tol, sub1, col1,
      subCols_complete, colCols_complete, subCols_noPaid, decide_eq_true_eq])
    (by norm_num [normalizedRows, normRow, sub1, subCols_noPaid])
    ⟨1, "A", 100, 60, 40⟩ (by simp)

/-- C3: a missing required column on either table makes `allocate`
fail with a `SchemaError` carrying exactly the missing columns of
that table (the submission table is checked first); the error carries
no updated rows — no partial processing occurs in this embedding. -/
theorem claim3_schema [DecidableEq ι] [DecidableEq ε]
    (s : SubTable ι ε) (c : ColTable ι ε) :
    (requiredSub \ s.cols ≠ ∅ →
      allocate s c = .error (.schemaError .submission (requiredSub \ s.cols))) ∧
    (requiredSub \ s.cols = ∅ → requiredCol \ c.cols ≠ ∅ →
      allocate s c = .error (.schemaError .collected (requiredCol \ c.cols))) := by
  constructor
  · intro h1
    unfold allocate
    rw [if_pos h1]
  · intro h1 h2
    unfold allocate
    rw [if_neg (fun hn => hn h1), if_pos h2]

/-- Witness for C3: a submission table lacking `INSTALMENT AMOUNT`
and a collected table lacking `PAID`, with the missing sets computed
explicitly. -/
theorem claim3_schema_w :
    allocate subMissing col0 =
      .error (.schemaError .submission (requiredSub \ subMissing.cols)) ∧
    requiredSub \ subMissing.cols = {"INSTALMENT AMOUNT"} ∧
    allocate sub1 colMissing =
      .error (.schemaError .collected (requiredCol \ colMissing.cols)) ∧
    requiredCol \ colMissing.cols = {"PAID"} :=
  ⟨(claim3_schema subMissing col0).1 (by decide), by decide,
   (claim3_schema sub1 colMissing).2 (by decide) (by decide), by decide⟩

/-- C7 fails as stated: a pre-existing `PAID` value of `1e-7` in the
submission table passes the conservation check (it is within the
`1e-6` tolerance) with an empty collected table, so `total_paid`
exceeds `total_collected`. -/
theorem claim7_no_invention_cex :
    allocate subTiny col0 =
      .ok ([⟨1, "A", 100, 1 / 10000000, 100 - 1 / 10000000⟩],
           ⟨0, 1 / 10000000, 0⟩) ∧
    totalCollected col0 = 0 ∧
    ¬ ((AllocationResult.mk 0 (1 / 10000000) 0).total_paid ≤
        totalCollected col0) := by
  refine ⟨?_, ?_, ?_⟩
  · norm_num [allocate, allocRun, normalizedRows, normRow, allocLoop,
      processCol, allocPass, totalPaid, totalCollected, tol, subTiny, col0,
      subColsP_complete, colCols_complete, subColsP_hasPaid, decide_eq_true_eq]
    intro hlt
    rw [abs_of_pos (by norm_num : (0 : ℚ) < 1 / 10000000)] at hlt
    exact absurd hlt (by norm_num)
  · norm_num [totalCollected, col0]
  · norm_num [totalCollected, col0]

/-- C7 amended: whenever `allocate` completes, `total_paid` exceeds
`total_collected` by at most the `1e-6` tolerance (the strict
`total_paid ≤ total_collected` only fails through pre-existing
submission `paid` values inside the tolerance). -/
theorem claim7_no_invention [DecidableEq ι] [DecidableEq ε]
    {s : SubTable ι ε} {c : ColTable ι ε} {t : List (WRow ι ε)}
    {q : AllocationResult} (h : allocate s c = .ok (t, q)) :
    q.total_paid ≤ totalCollected c + tol := by
  obtain ⟨-, hres, hchk⟩ := allocate_ok_inv h
  have hlo : (0 : ℚ) ≤ (allocRun s c).2 := by
    unfold allocRun
    exact allocLoop_leftover_le _ _ 0
  subst hres
  dsimp only
  have habs := abs_le.mp hchk
  linarith [habs.2]

/-- Witness for the amended C7 at Scenario 1. -/
theorem claim7_no_invention_w :
    (AllocationResult.mk 1 60 0).total_paid ≤ totalCollected col1 + tol :=
  claim7_no_invention (s := sub1) (t := [⟨1, "A", 100, 60, 40⟩]) (by
    norm_num [allocate, allocRun, normalizedRows, normRow, allocLoop,
      processCol, allocPass, totalPaid, totalCollected, tol, sub1, col1,
      subCols_complete, colCols_complete, subCols_noPaid, decide_eq_true_eq])

/-- C8: when `allocate` completes, every submission record satisfies
`diff = instalment_amount - paid`: the identity is established by the
initialisation and re-established at every `paid` update. -/
theorem claim8_diff [DecidableEq ι] [DecidableEq ε]
    {s : SubTable ι ε} {c : ColTable ι ε} {t : List (WRow ι ε)}
    {q : AllocationResult} (h : allocate s c = .ok (t, q)) :
    ∀ r ∈ t, r.diff = r.instalmentAmount - r.paid := by
  obtain ⟨ht, -, -⟩ := allocate_ok_inv h
  subst ht
  unfold allocRun
  refine allocLoop_forall (fun r => r.diff = r.instalmentAmount - r.paid)
    (fun r a _ _ _ => rfl) _ _ _ ?_
  intro r hr
  simp only [normalizedRows, List.mem_map] at hr
  obtain ⟨x, -, rfl⟩ := hr
  rfl

/-- Witness for C8 at Scenario 1. -/
theorem claim8_diff_w :
    (⟨1, "A", 100, 60, 40⟩ : WRow ℕ String).diff =
      (⟨1, "A", 100, 60, 40⟩ : WRow ℕ String).instalmentAmount -
        (⟨1, "A", 100, 60, 40⟩ : WRow ℕ String).paid :=
  claim8_diff (s := sub1) (c := col1)
    (t := [⟨1, "A", 100, 60, 40⟩]) (q := ⟨1, 60, 0⟩) (by
    norm_num [allocate, allocRun, normalizedRows, normRow, allocLoop,
      processCol, allocPass, totalPaid, totalCollected, tol, sub1, col1,
      subCols_complete, colCols_complete, subCols_noPaid, decide_eq_true_eq])
    ⟨1, "A", 100, 60, 40⟩ (by simp)

/-- C9: a collected record whose `paid` is ≤ 0 is dropped silently:
processing it changes no submission row and adds nothing to
`leftover` (the first matching row hits the `break` immediately and
the `leftover += amount` guard is false), yet its amount still counts
toward `total_collected`. -/
theorem claim9_nonpositive [DecidableEq ι] [DecidableEq ε]
    (cc : Finset String) (cr : ColRow ι ε) (cs : List (ColRow ι ε))
    (sub : List (WRow ι ε)) (lo : ℚ) (h : cr.paid ≤ 0) :
    allocLoop (cr :: cs) sub lo = allocLoop cs sub lo ∧
    totalCollected ⟨cc, cr :: cs⟩ = cr.paid + totalCollected ⟨cc, cs⟩ := by
  constructor
  · have hp : processCol sub cr = (sub, cr.paid) := by
      unfold processCol
      simp [allocPass_of_nonpos _ _ h, not_lt.mpr h]
    have hstep : allocLoop (cr :: cs) sub lo =
        allocLoop cs (processCol sub cr).1
          (if (processCol sub cr).2 > 0 then lo + (processCol sub cr).2
           else lo) := rfl
    rw [hstep, hp]
    simp [not_lt.mpr h]
  · simp [totalCollected]

/-- Witness for C9: a collected payment of −5 leaves the submission
row and the leftover alone. -/
theorem claim9_nonpositive_w :
    allocLoop [(⟨2, "B", -5⟩ : ColRow ℕ String)] [⟨1, "A", 50, 0, 50⟩] 0 =
      allocLoop [] [⟨1, "A", 50, 0, 50⟩] 0 ∧
    totalCollected ⟨colCols, [(⟨2, "B", -5⟩ : ColRow ℕ String)]⟩ =
      -5 + totalCollected (⟨colCols, []⟩ : ColTable ℕ String) :=
  claim9_nonpositive colCols ⟨2, "B", -5⟩ [] [⟨1, "A", 50, 0, 50⟩] 0
    (by norm_num)

/-- C10: `allocate` never decreases any record's `paid`: pointwise
along the submission rows, the final `paid` is at least the
normalised initial `paid`. -/
theorem claim10_paid_mono [DecidableEq ι] [DecidableEq ε]
    {s : SubTable ι ε} {c : ColTable ι ε} {t : List (WRow ι ε)}
    {q : AllocationResult} (h : allocate s c = .ok (t, q)) :
    List.Forall₂ (fun a b => a.paid ≤ b.paid) (normalizedRows s) t := by
  obtain ⟨ht, -, -⟩ := allocate_ok_inv h
  subst ht
  unfold allocRun
  exact allocLoop_paid_le _ _ _

/-- Witness for C10 at Scenario 1. -/
theorem claim10_paid_mono_w :
    List.Forall₂ (fun a b => a.paid ≤ b.paid) (normalizedRows sub1)
      [(⟨1, "A", 100, 60, 40⟩ : WRow ℕ String)] :=
  claim10_paid_mono (c := col1) (q := ⟨1, 60, 0⟩) (by
    norm_num [allocate, allocRun, normalizedRows, normRow, allocLoop,
      processCol, allocPass, totalPaid, totalCollected, tol, sub1, col1,
      subCols_complete, colCols_complete, subCols_noPaid, decide_eq_true_eq])

end LoanAlloc
